import Mathlib

/-!
Shallow embedding of `neuralbec/data.py` (repository `tamil-phy/BEC_GP`).

Python floats are modelled as rationals (`ℚ`) in the data-handling layer
(sampling, dataset shaping, persistence), and as reals (`ℝ`) in the
numerical layer (potentials, density normalisation), where square roots
and cosines occur.

Python dictionaries are modelled as association lists with string keys
(`PyDict`); the values that actually occur in the program are the grid
axis (a list of floats), the datapoint list (a list of
(coupling, density) pairs), and possibly other values, which are kept
opaque.  The filesystem is a map from normalised POSIX paths to stored
pickled objects; `pickle.dump`/`pickle.load` round-trip Python objects,
so serialisation is the identity in the model and a file simply holds
the dictionary object.
-/

namespace NeuralBec

/-- Values stored in the Python dictionaries of `data.py`: the `x` axis is
a list of floats, the `data` entry is a list of `(g, density)` pairs, and
any other value is opaque. -/
inductive Val where
  | floats : List ℚ → Val
  | pairs : List (ℚ × List ℚ) → Val
  | other : Nat → Val
deriving DecidableEq, Repr

/-- A Python dict with string keys, as an association list (first match wins,
as insertion below keeps keys unique in place). -/
abbrev PyDict := List (String × Val)

/-- Python dict lookup `d[k]`: the binding of `k`, if any (Python dicts
hold each key at most once, so the first binding is the binding). -/
def dictGet : PyDict → String → Option Val
  | [], _ => none
  | kv :: rest, k => if kv.1 = k then some kv.2 else dictGet rest k

/-- Python dict assignment `d[k] = v`: replaces the binding in place if the
key exists (Python dicts hold each key at most once, so replacing the first
binding is replacing the binding), else appends it at the end (CPython
dicts preserve insertion order). -/
def dictInsert : PyDict → String → Val → PyDict
  | [], k, v => [(k, v)]
  | kv :: rest, k, v =>
    if kv.1 = k then (k, v) :: rest else kv :: dictInsert rest k v

/-- Does the string begin with the character `/`? (Used by `os.path.join`.) -/
def startsWithSlash (s : String) : Bool :=
  match s.data with
  | [] => false
  | c :: _ => c = '/'

/-- Does the string end with the character `/`? (Used by `os.path.join`.) -/
def endsWithSlash (s : String) : Bool :=
  match s.data.getLast? with
  | some c => c = '/'
  | none => false

/-- Model of Python `os.path.join(path, name)` for POSIX paths: an absolute
`name` wins; otherwise a separator is inserted unless `path` is empty or
already ends with one. -/
def osJoin (path name : String) : String :=
  if startsWithSlash name then name
  else if path = "" || endsWithSlash path then path ++ name
  else path ++ "/" ++ name

/-- Collapse runs of `/` in a character list to a single `/`; the flag says
whether the previously emitted character was a `/`. -/
def collapseSlashes : Bool → List Char → List Char
  | _, [] => []
  | prevSlash, c :: cs =>
    if c = '/' then
      if prevSlash then collapseSlashes true cs
      else c :: collapseSlashes true cs
    else c :: collapseSlashes false cs

/-- POSIX path normalisation relevant here: repeated separators denote the
same file, so the filesystem model is keyed by slash-collapsed paths. -/
def normPath (s : String) : String :=
  ⟨collapseSlashes false s.data⟩

/-- The filesystem: a map from normalised paths to stored (pickled) objects. -/
abbrev FS := String → Option PyDict

/-- The empty filesystem. -/
def emptyFS : FS := fun _ => none

/-- Concrete fixture: a small Dataset dict as `generate_varg` shapes it. -/
def sampleDict : PyDict := [("x", Val.floats [2]), ("data", Val.pairs [(1, [1])])]

/-- Concrete fixture: a Dataset dict carrying an extra key besides `x` and
`data` (as happens when the simulation reference holds more than `x`). -/
def extraDict : PyDict :=
  [("x", Val.floats [2]), ("junk", Val.other 0), ("data", Val.pairs [(1, [1])])]

/-- Concrete fixture: a filesystem holding `sampleDict` at the path that
`load "t" "data/"` reads. -/
def fsWithSample : FS :=
  fun q => if q = normPath ("data/" ++ "/" ++ "t" ++ ".data") then some sampleDict else none

/-- Concrete fixture: a filesystem holding `extraDict` at the path that
`load "t" "data/"` reads. -/
def fsWithExtra : FS :=
  fun q => if q = normPath ("data/" ++ "/" ++ "t" ++ ".data") then some extraDict else none

/-- `save(datadict, name, path='data/')` from `data.py`: pickles `datadict`
to the file `os.path.join(path, name)`, overwriting silently.  The log line
is ignored in the model. -/
def save (datadict : PyDict) (name path : String) (fs : FS) : FS :=
  fun p => if p = normPath (osJoin path name) then some datadict else fs p

/-- Errors that `load` can raise: missing file (`FileNotFoundError`),
missing dict key (`KeyError`), or unpacking a non-pair-list (`TypeError`). -/
inductive LoadErr where
  | fileNotFound : LoadErr
  | keyError : LoadErr
  | typeError : LoadErr
deriving DecidableEq, Repr

/-- `load(name, path='data/')` from `data.py`: unpickles the object at
`'{}/{}.data'.format(path, name)`, splits `data` into the coupling values
and the density sequences in order, and rebuilds `reference` as a fresh
dict holding only the key `x`. -/
def load (name path : String) (fs : FS) :
    Except LoadErr (List ℚ × List (List ℚ) × PyDict) :=
  match fs (normPath (path ++ "/" ++ name ++ ".data")) with
  | none => Except.error LoadErr.fileNotFound
  | some d =>
    match dictGet d "data" with
    | none => Except.error LoadErr.keyError
    | some (Val.pairs ps) =>
      match dictGet d "x" with
      | none => Except.error LoadErr.keyError
      | some xv =>
        Except.ok (ps.map (fun p => p.1), ps.map (fun p => p.2), [("x", xv)])
    | some _ => Except.error LoadErr.typeError

/-- Errors out of `generate_varg`: an exception raised by `fn`, or the
`UnboundLocalError` on `ref` when the sampling loop body never ran. -/
inductive PyErr (ε : Type) where
  | unboundLocal : PyErr ε
  | fnError : ε → PyErr ε

/-- The sampling loop of `generate_varg`: walks the sampled couplings in
order, appending `(g, psi)` to `datapoints` and rebinding `ref` at each
step; an exception from `fn` aborts immediately. -/
def genLoop {ε : Type} (fn : ℚ → Except ε (PyDict × List ℚ)) :
    List ℚ → List (ℚ × List ℚ) → Option PyDict →
    Except ε (List (ℚ × List ℚ) × Option PyDict)
  | [], dps, ref => Except.ok (dps, ref)
  | g :: gs, dps, ref =>
    match fn g with
    | Except.error e => Except.error e
    | Except.ok (r, psi) => genLoop fn gs (dps ++ [(g, psi)]) (some r)

/-- `generate_varg(fn, num_samples, filename, g_low, g_high)` from
`data.py`.  The call `np.random.uniform(g_low, g_high, num_samples)` is
external; it is modelled by passing the sampled array `gs` explicitly
(`num_samples = gs.length`; range facts about the samples appear as
hypotheses).  After the loop, `datadict = ref` aliases the last reference,
`datadict['data'] = datapoints` is added, the dict is saved under
`filename` at the default path `'data/'`, and the dict is returned.  If
the loop never ran, using `ref` raises `UnboundLocalError`; on any error
the filesystem is left unchanged. -/
def generate_varg {ε : Type} (fn : ℚ → Except ε (PyDict × List ℚ))
    (gs : List ℚ) (filename : String) (fs : FS) :
    Except (PyErr ε) PyDict × FS :=
  match genLoop fn gs [] none with
  | Except.error e => (Except.error (PyErr.fnError e), fs)
  | Except.ok (_, none) => (Except.error PyErr.unboundLocal, fs)
  | Except.ok (dps, some ref) =>
    let datadict := dictInsert ref "data" (Val.pairs dps)
    (Except.ok datadict, save datadict filename "data/" fs)

/-- Projection used to state facts about runs of `generate_varg` in which
`fn` raised no exception: the `(reference, psi)` payload of a successful
`fn` result (the default is never reached under the all-ok hypotheses). -/
def okParts {ε : Type} (r : Except ε (PyDict × List ℚ)) : PyDict × List ℚ :=
  match r with
  | Except.ok p => p
  | Except.error _ => ([], [])

/-- `harmonic_potential(x, y)` from `data.py`: `0.5 * (x**2 + y**2)`. -/
def harmonic_potential (x y : ℝ) : ℝ :=
  0.5 * (x ^ 2 + y ^ 2)

/-- `custom_potential_1(x, y)` from `data.py`:
`0.5 * (x**2) + 24 * (math.cos(x) ** 2)` (independent of `y`). -/
noncomputable def custom_potential_1 (x _y : ℝ) : ℝ :=
  0.5 * (x ^ 2) + 24 * (Real.cos x) ^ 2

/-- Python's builtin `max` over an iterable: `none` models the `ValueError`
on an empty sequence. -/
def pymax (l : List ℝ) : Option ℝ :=
  match l with
  | [] => none
  | a :: rest => some (rest.foldl max a)

/-- The reference dict `{ 'x' : grid.get_x_axis() }` returned by the
simulation runner, over the reals of the numerical layer. -/
structure SimRef where
  x : List ℝ

/-- `particle_density_BEC1D(dim, radius, angular_momentum, time_step,
coupling, iterations)` from `data.py`.  The trotter-suzuki library is
external: lattice construction, state initialisation, `solver.evolve`, and
density extraction are modelled by the abstract collaborator functions
`getXAxis` (for `grid.get_x_axis()`, depending on `dim` and `radius`) and
`getDensity` (for `state.get_particle_density()[0]` after evolution,
depending on all parameters).  The repository's own code then takes the
elementwise square root and rescales by the maximum; `none` models the
`ValueError` of `max` on an empty array. -/
noncomputable def particle_density_BEC1D
    (getXAxis : ℕ → ℝ → List ℝ)
    (getDensity : ℕ → ℝ → ℝ → ℝ → ℝ → ℕ → List ℝ)
    (dim : ℕ) (radius angular_momentum time_step coupling : ℝ)
    (iterations : ℕ) : Option (SimRef × List ℝ) :=
  match pymax ((getDensity dim radius angular_momentum time_step coupling
      iterations).map Real.sqrt) with
  | none => none
  | some m =>
    some (⟨getXAxis dim radius⟩,
      ((getDensity dim radius angular_momentum time_step coupling
        iterations).map Real.sqrt).map (fun v => v / m))

/-! ### Path bookkeeping

`save` addresses `os.path.join(path, name)` while `load` addresses
`'{}/{}.data'.format(path, name)`; with the shared default `path = 'data/'`
the two differ as strings (`data/…` vs `data//…`) but collapse to the same
normalised POSIX path once the caller appends `.data` to the name given to
`save`. -/

theorem startsWithSlash_append_dotdata (name : String)
    (h : startsWithSlash name = false) :
    startsWithSlash (name ++ ".data") = false := by
  obtain ⟨l⟩ := name
  cases l with
  | nil => rfl
  | cons c cs =>
    simp only [startsWithSlash] at h
    show startsWithSlash ⟨(c :: cs) ++ ".data".data⟩ = false
    simpa [startsWithSlash] using h

theorem loadKey_eq_saveKey (name : String) (h : startsWithSlash name = false) :
    normPath ("data/" ++ "/" ++ name ++ ".data") =
      normPath (osJoin "data/" (name ++ ".data")) := by
  have h2 := startsWithSlash_append_dotdata name h
  rw [osJoin, h2]
  simp only [Bool.false_eq_true, if_false]
  rw [if_pos (by decide : ("data/" = "" || endsWithSlash "data/") = true)]
  obtain ⟨l⟩ := name
  show normPath ⟨'d' :: 'a' :: 't' :: 'a' :: '/' :: '/' :: (l ++ ".data".data)⟩ =
    normPath ⟨'d' :: 'a' :: 't' :: 'a' :: '/' :: (l ++ ".data".data)⟩
  simp [normPath, collapseSlashes]

/-! ### The sampling loop of `generate_varg` -/

theorem genLoop_all_ok {ε : Type} (fn : ℚ → Except ε (PyDict × List ℚ))
    (gs : List ℚ) (hok : ∀ g ∈ gs, ∃ p, fn g = Except.ok p)
    (dps : List (ℚ × List ℚ)) (ref : Option PyDict) :
    genLoop fn gs dps ref =
      Except.ok (dps ++ gs.map (fun g => (g, (okParts (fn g)).2)),
        gs.foldl (fun _ g => some (okParts (fn g)).1) ref) := by
  induction gs generalizing dps ref with
  | nil => simp [genLoop]
  | cons g rest ih =>
    obtain ⟨p, hp⟩ := hok g (by simp)
    obtain ⟨r, psi⟩ := p
    have hrest : ∀ g ∈ rest, ∃ p, fn g = Except.ok p :=
      fun g hg => hok g (by simp [hg])
    simp [genLoop, hp, okParts, ih hrest]

theorem foldl_const_some_getLast {α β : Type} (f : α → β) (gs : List α)
    (h : gs ≠ []) (init : Option β) :
    gs.foldl (fun _ g => some (f g)) init = some (f (gs.getLast h)) := by
  induction gs generalizing init with
  | nil => exact absurd rfl h
  | cons a rest ih =>
    cases rest with
    | nil => simp [List.getLast]
    | cons b r =>
      rw [List.foldl_cons, ih (by simp) (some (f a))]
      simp [List.getLast_cons]

theorem genLoop_first_error {ε : Type} (fn : ℚ → Except ε (PyDict × List ℚ))
    (gs : List ℚ) (h : ∃ g ∈ gs, ∃ e, fn g = Except.error e)
    (dps : List (ℚ × List ℚ)) (ref : Option PyDict) :
    ∃ e, genLoop fn gs dps ref = Except.error e ∧
      ∃ g ∈ gs, fn g = Except.error e := by
  induction gs generalizing dps ref with
  | nil => simp at h
  | cons a rest ih =>
    cases hfa : fn a with
    | error e => exact ⟨e, by simp [genLoop, hfa], a, by simp, hfa⟩
    | ok p =>
      obtain ⟨r, psi⟩ := p
      have h' : ∃ g ∈ rest, ∃ e, fn g = Except.error e := by
        obtain ⟨g, hg, e, he⟩ := h
        rcases List.mem_cons.mp hg with hga | hgr
        · rw [hga] at he; rw [he] at hfa; exact absurd hfa (by simp)
        · exact ⟨g, hgr, e, he⟩
      obtain ⟨e, hrun, g, hg, he⟩ := ih h' (dps ++ [(a, psi)]) (some r)
      exact ⟨e, by simp [genLoop, hfa, hrun], g, by simp [hg], he⟩

theorem generate_varg_all_ok {ε : Type} (fn : ℚ → Except ε (PyDict × List ℚ))
    (gs : List ℚ) (hne : gs ≠ []) (hok : ∀ g ∈ gs, ∃ p, fn g = Except.ok p)
    (filename : String) (fs : FS) :
    generate_varg fn gs filename fs =
      (Except.ok (dictInsert (okParts (fn (gs.getLast hne))).1 "data"
          (Val.pairs (gs.map (fun g => (g, (okParts (fn g)).2))))),
        save (dictInsert (okParts (fn (gs.getLast hne))).1 "data"
          (Val.pairs (gs.map (fun g => (g, (okParts (fn g)).2)))))
          filename "data/" fs) := by
  unfold generate_varg
  rw [genLoop_all_ok fn gs hok [] none,
    foldl_const_some_getLast (fun g => (okParts (fn g)).1) gs hne none]
  simp

/-! ### Dictionary lemmas -/

theorem dictGet_dictInsert (d : PyDict) (k : String) (v : Val) :
    dictGet (dictInsert d k v) k = some v := by
  induction d with
  | nil => simp [dictInsert, dictGet]
  | cons kv rest ih =>
    by_cases hk : kv.1 = k
    · simp [dictInsert, dictGet, hk]
    · simp [dictInsert, dictGet, hk, ih]

theorem dictGet_dictInsert_ne (d : PyDict) (k : String) (v : Val)
    (k' : String) (h : k' ≠ k) :
    dictGet (dictInsert d k v) k' = dictGet d k' := by
  induction d with
  | nil => simp [dictInsert, dictGet, Ne.symm h]
  | cons kv rest ih =>
    by_cases hk : kv.1 = k
    · simp [dictInsert, dictGet, hk, Ne.symm h]
    · simp [dictInsert, dictGet, hk, ih]

/-! ### Persistence claims -/

/-- C1, counterexample: with the same `name` passed to `save` and then to
`load`, the round trip fails — `save` writes `data/t` while `load` reads
`data/t.data` — so the data of the saved Dataset is not reproduced. -/
theorem save_load_same_name_fails :
    load "t" "data/"
      (save [("x", Val.floats [0, 1, 2]),
             ("data", Val.pairs [(3/2, [1/10, 9/10, 1/10]),
                                 (5/2, [1/5, 1, 3/10])])]
        "t" "data/" emptyFS) = Except.error LoadErr.fileNotFound := by
  rfl

/-- C1 (amended): for a Dataset produced by the generator (a dict binding
`x` and binding `data` to (coupling, density) pairs), saving it under
`name ++ ".data"` and then loading under `name` reproduces the data
entries, separated into the coupling values and the density sequences in
original order, and `x` exactly. -/
theorem save_load_roundtrip (name : String)
    (hname : startsWithSlash name = false)
    (d : PyDict) (xv : Val) (ps : List (ℚ × List ℚ)) (fs : FS)
    (hx : dictGet d "x" = some xv)
    (hdata : dictGet d "data" = some (Val.pairs ps)) :
    load name "data/" (save d (name ++ ".data") "data/" fs) =
      Except.ok (ps.map (fun p => p.1), ps.map (fun p => p.2), [("x", xv)]) := by
  unfold load save
  rw [loadKey_eq_saveKey name hname]
  simp [hx, hdata]

/-- C1 witness: the amended round trip evaluated on a concrete Dataset. -/
theorem save_load_roundtrip_witness :
    load "t" "data/" (save sampleDict ("t" ++ ".data") "data/" emptyFS) =
      Except.ok ([1], [[1]], [("x", Val.floats [2])]) :=
  save_load_roundtrip "t" (by decide) sampleDict (Val.floats [2]) [(1, [1])]
    emptyFS (by decide) (by decide)

/-- C4: `save` writes the dict at `{path}/{name}` (joined, no suffix added)
and nowhere else; `load` reads `{path}/{name}.data` and, when the stored
dict binds `data` to pairs and binds `x`, returns the couplings and the
densities in order together with `reference = {x: …}`; and with the
default path, appending `.data` to the name given to `save` makes the two
paths coincide. -/
theorem save_load_paths (d : PyDict) (name path : String) (fs : FS)
    (xv : Val) (ps : List (ℚ × List ℚ)) :
    (save d name path fs (normPath (osJoin path name)) = some d) ∧
    (∀ q, q ≠ normPath (osJoin path name) → save d name path fs q = fs q) ∧
    (fs (normPath (path ++ "/" ++ name ++ ".data")) = some d →
      dictGet d "data" = some (Val.pairs ps) →
      dictGet d "x" = some xv →
      load name path fs =
        Except.ok (ps.map (fun p => p.1), ps.map (fun p => p.2), [("x", xv)])) ∧
    (startsWithSlash name = false →
      normPath ("data/" ++ "/" ++ name ++ ".data") =
        normPath (osJoin "data/" (name ++ ".data"))) := by
  refine ⟨by simp [save], fun q hq => by simp [save, hq], fun hf hd hx => ?_,
    fun h => loadKey_eq_saveKey name h⟩
  unfold load
  rw [hf]
  simp [hd, hx]

/-- C4 witness: the path split and the round-trip parts evaluated on a
concrete filesystem. -/
theorem save_load_paths_witness :
    (load "t" "data/" fsWithSample =
      Except.ok ([1], [[1]], [("x", Val.floats [2])])) ∧
    (normPath ("data/" ++ "/" ++ "t" ++ ".data") =
      normPath (osJoin "data/" ("t" ++ ".data"))) :=
  ⟨(save_load_paths sampleDict "t" "data/" fsWithSample (Val.floats [2])
      [(1, [1])]).2.2.1 (by rfl) (by decide) (by decide),
    (save_load_paths sampleDict "t" "data/" fsWithSample (Val.floats [2])
      [(1, [1])]).2.2.2 (by decide)⟩

/-- C10: `load` rebuilds `reference` as a fresh dict holding exactly the
single key `x`; any further keys of the stored dict are dropped. -/
theorem load_reference_only_x (name path : String) (fs : FS) (d : PyDict)
    (xv : Val) (ps : List (ℚ × List ℚ))
    (hf : fs (normPath (path ++ "/" ++ name ++ ".data")) = some d)
    (hdata : dictGet d "data" = some (Val.pairs ps))
    (hx : dictGet d "x" = some xv) :
    ∃ ins outs, load name path fs = Except.ok (ins, outs, [("x", xv)]) ∧
      ∀ k, k ≠ "x" → dictGet [("x", xv)] k = none := by
  refine ⟨ps.map (fun p => p.1), ps.map (fun p => p.2), ?_,
    fun k hk => by simp [dictGet, Ne.symm hk]⟩
  unfold load
  rw [hf]
  simp [hdata, hx]

/-- C10 witness: loading a stored dict that carries the extra key `junk`
returns a reference holding only `x`. -/
theorem load_reference_only_x_witness :
    ∃ ins outs, load "t" "data/" fsWithExtra =
      Except.ok (ins, outs, [("x", Val.floats [2])]) ∧
      ∀ k, k ≠ "x" → dictGet [("x", Val.floats [2])] k = none :=
  load_reference_only_x "t" "data/" fsWithExtra extraDict (Val.floats [2])
    [(1, [1])] (by rfl) (by decide) (by decide)

/-- C9: with `num_samples = 0` the sampled array is empty, the loop body
never runs, and building `datadict = ref` hits the never-assigned local
`ref` (`UnboundLocalError`); nothing is written to the filesystem. -/
theorem generate_varg_zero_samples {ε : Type}
    (fn : ℚ → Except ε (PyDict × List ℚ)) (gs : List ℚ)
    (h : gs.length = 0) (filename : String) (fs : FS) :
    generate_varg fn gs filename fs = (Except.error PyErr.unboundLocal, fs) := by
  rw [List.length_eq_zero.mp h]
  rfl

/-- C9 witness: the zero-sample run evaluated concretely. -/
theorem generate_varg_zero_samples_witness :
    generate_varg (fun _ : ℚ => (Except.ok ([], []) : Except Unit (PyDict × List ℚ)))
      [] "bec" emptyFS = (Except.error PyErr.unboundLocal, emptyFS) :=
  generate_varg_zero_samples _ [] rfl "bec" emptyFS

/-! ### Dataset-generator claims

`np.random.uniform(g_low, g_high, num_samples)` is external; its output is
the explicit list `gs`, with its documented behaviour (`num_samples`
entries, each in `[g_low, g_high)`, or all equal to the shared bound when
`g_low = g_high`) appearing as hypotheses. -/

/-- C3: with `num_samples` positive, samples in `[g_low, g_high)`, and `fn`
raising no exception, `generate_varg` returns a Dataset whose `data` field
has exactly `num_samples` entries, in sampling order, each pairing a
sampled coupling in `[g_low, g_high)` with the density `fn` returned for
it. -/
theorem generate_varg_data_entries {ε : Type}
    (fn : ℚ → Except ε (PyDict × List ℚ)) (gs : List ℚ)
    (num_samples : ℕ) (g_low g_high : ℚ) (filename : String) (fs : FS)
    (hlen : gs.length = num_samples) (hpos : 0 < num_samples)
    (hrange : ∀ g ∈ gs, g_low ≤ g ∧ g < g_high)
    (hok : ∀ g ∈ gs, ∃ p, fn g = Except.ok p) :
    ∃ d fs', generate_varg fn gs filename fs = (Except.ok d, fs') ∧
      ∃ dps, dictGet d "data" = some (Val.pairs dps) ∧
        dps.length = num_samples ∧
        List.Forall₂ (fun (p : ℚ × List ℚ) g =>
          p.1 = g ∧ g_low ≤ p.1 ∧ p.1 < g_high ∧
          ∃ ref, fn g = Except.ok (ref, p.2)) dps gs := by
  have hne : gs ≠ [] := by
    intro hnil
    rw [hnil] at hlen
    simp at hlen
    omega
  rw [generate_varg_all_ok fn gs hne hok filename fs]
  refine ⟨_, _, rfl, gs.map (fun g => (g, (okParts (fn g)).2)),
    dictGet_dictInsert _ _ _, by simp [hlen], ?_⟩
  rw [List.forall₂_map_left_iff, List.forall₂_same]
  intro g hg
  obtain ⟨⟨r, psi⟩, hp⟩ := hok g hg
  exact ⟨rfl, (hrange g hg).1, (hrange g hg).2, r, by simp [hp, okParts]⟩

/-- C3 witness: a two-sample run with a stub density function. -/
theorem generate_varg_data_entries_witness :
    ∃ d fs',
      generate_varg
        (fun g : ℚ => (Except.ok ([("x", Val.floats [0])], [g, g]) :
          Except Unit (PyDict × List ℚ)))
        [1, 2] "bec" emptyFS = (Except.ok d, fs') ∧
      ∃ dps, dictGet d "data" = some (Val.pairs dps) ∧
        dps.length = 2 ∧
        List.Forall₂ (fun (p : ℚ × List ℚ) g =>
          p.1 = g ∧ 0 ≤ p.1 ∧ p.1 < 3 ∧
          ∃ ref,
            (fun g : ℚ => (Except.ok ([("x", Val.floats [0])], [g, g]) :
              Except Unit (PyDict × List ℚ))) g = Except.ok (ref, p.2))
          dps [1, 2] :=
  generate_varg_data_entries _ [1, 2] 2 0 3 "bec" emptyFS rfl (by decide)
    (by intro g hg
        simp only [List.mem_cons, List.not_mem_nil, or_false] at hg
        rcases hg with rfl | rfl <;> norm_num)
    (fun g _ => ⟨_, rfl⟩)

/-- C5: on a successful run, the returned (and persisted) Dataset is the
reference dict of the last invocation of `fn` with `data` added to it; in
particular every key other than `data` — `x` included — comes from the
final sample's reference only. -/
theorem generate_varg_last_reference {ε : Type}
    (fn : ℚ → Except ε (PyDict × List ℚ)) (gs : List ℚ) (hne : gs ≠ [])
    (hok : ∀ g ∈ gs, ∃ p, fn g = Except.ok p) (filename : String) (fs : FS) :
    ∃ d, generate_varg fn gs filename fs =
        (Except.ok d, save d filename "data/" fs) ∧
      d = dictInsert (okParts (fn (gs.getLast hne))).1 "data"
            (Val.pairs (gs.map (fun g => (g, (okParts (fn g)).2)))) ∧
      ∀ k, k ≠ "data" →
        dictGet d k = dictGet (okParts (fn (gs.getLast hne))).1 k := by
  rw [generate_varg_all_ok fn gs hne hok filename fs]
  exact ⟨_, rfl, rfl, fun k hk => dictGet_dictInsert_ne _ _ _ _ hk⟩

/-- C5 witness: two samples whose references disagree; only the second
reference's `x` survives in the Dataset. -/
theorem generate_varg_last_reference_witness :
    ∃ d, generate_varg
        (fun g : ℚ => (Except.ok ([("x", Val.floats [g])], [g]) :
          Except Unit (PyDict × List ℚ)))
        [1, 2] "bec" emptyFS =
        (Except.ok d, save d "bec" "data/" emptyFS) ∧
      dictGet d "x" = some (Val.floats [2]) := by
  obtain ⟨d, hrun, hd, hks⟩ :=
    generate_varg_last_reference
      (fun g : ℚ => (Except.ok ([("x", Val.floats [g])], [g]) :
        Except Unit (PyDict × List ℚ)))
      [1, 2] (by simp) (fun g _ => ⟨_, rfl⟩) "bec" emptyFS
  refine ⟨d, hrun, ?_⟩
  rw [hks "x" (by decide)]
  rfl

/-- C6: if `fn` raises on any sampled coupling, `generate_varg` aborts with
that error and the filesystem is unchanged (no partial dataset); if every
invocation succeeds, the returned Dataset has been written under
`filename` at the default path before the call returns. -/
theorem generate_varg_abort_or_persist {ε : Type}
    (fn : ℚ → Except ε (PyDict × List ℚ)) (gs : List ℚ)
    (filename : String) (fs : FS) :
    ((∃ g ∈ gs, ∃ e, fn g = Except.error e) →
      ∃ e, generate_varg fn gs filename fs =
          (Except.error (PyErr.fnError e), fs) ∧
        ∃ g ∈ gs, fn g = Except.error e) ∧
    ((gs ≠ [] ∧ ∀ g ∈ gs, ∃ p, fn g = Except.ok p) →
      ∃ d, generate_varg fn gs filename fs =
          (Except.ok d, save d filename "data/" fs) ∧
        save d filename "data/" fs (normPath (osJoin "data/" filename)) = some d) := by
  constructor
  · intro h
    obtain ⟨e, hrun, g, hg, he⟩ := genLoop_first_error fn gs h [] none
    exact ⟨e, by simp [generate_varg, hrun], g, hg, he⟩
  · rintro ⟨hne, hok⟩
    rw [generate_varg_all_ok fn gs hne hok filename fs]
    exact ⟨_, rfl, by simp [save]⟩

/-- C6 witness: a failing stub aborts the run leaving the filesystem
untouched; a succeeding stub gets its Dataset persisted under the
filename. -/
theorem generate_varg_abort_or_persist_witness :
    (∃ e, generate_varg
        (fun _ : ℚ => (Except.error () : Except Unit (PyDict × List ℚ)))
        [1] "bec" emptyFS = (Except.error (PyErr.fnError e), emptyFS) ∧
      ∃ g ∈ [(1 : ℚ)],
        (fun _ : ℚ => (Except.error () : Except Unit (PyDict × List ℚ))) g =
          Except.error e) ∧
    (∃ d, generate_varg
        (fun g : ℚ => (Except.ok ([("x", Val.floats [g])], [g]) :
          Except Unit (PyDict × List ℚ)))
        [1] "bec" emptyFS = (Except.ok d, save d "bec" "data/" emptyFS) ∧
      save d "bec" "data/" emptyFS (normPath (osJoin "data/" "bec")) = some d) :=
  ⟨(generate_varg_abort_or_persist
      (fun _ : ℚ => (Except.error () : Except Unit (PyDict × List ℚ)))
      [1] "bec" emptyFS).1 ⟨1, by simp, (), rfl⟩,
    (generate_varg_abort_or_persist
      (fun g : ℚ => (Except.ok ([("x", Val.floats [g])], [g]) :
        Except Unit (PyDict × List ℚ)))
      [1] "bec" emptyFS).2 ⟨by simp, fun g _ => ⟨_, rfl⟩⟩⟩

/-- C8: when `g_low = g_high`, `np.random.uniform` returns that shared
value for every draw (modelled by the hypothesis on `gs`), so every entry
of the resulting Dataset's `data` carries that coupling. -/
theorem generate_varg_constant_g {ε : Type}
    (fn : ℚ → Except ε (PyDict × List ℚ)) (gs : List ℚ)
    (g_low g_high v : ℚ) (filename : String) (fs : FS)
    (hlow : g_low = v) (hhigh : g_high = v)
    (hne : gs ≠ []) (hconst : ∀ g ∈ gs, g = g_low)
    (hok : ∀ g ∈ gs, ∃ p, fn g = Except.ok p) :
    ∃ d fs', generate_varg fn gs filename fs = (Except.ok d, fs') ∧
      ∃ dps, dictGet d "data" = some (Val.pairs dps) ∧ dps ≠ [] ∧
        ∀ p ∈ dps, p.1 = v := by
  rw [generate_varg_all_ok fn gs hne hok filename fs]
  refine ⟨_, _, rfl, gs.map (fun g => (g, (okParts (fn g)).2)),
    dictGet_dictInsert _ _ _, by simp [hne], ?_⟩
  intro p hp
  obtain ⟨g, hg, rfl⟩ := List.mem_map.mp hp
  rw [hconst g hg, hlow]

/-- C8 witness: `g_low = g_high = 7` with both draws equal to `7`. -/
theorem generate_varg_constant_g_witness :
    ∃ d fs', generate_varg
        (fun g : ℚ => (Except.ok ([("x", Val.floats [0])], [g]) :
          Except Unit (PyDict × List ℚ)))
        [7, 7] "bec" emptyFS = (Except.ok d, fs') ∧
      ∃ dps, dictGet d "data" = some (Val.pairs dps) ∧ dps ≠ [] ∧
        ∀ p ∈ dps, p.1 = 7 :=
  generate_varg_constant_g _ [7, 7] 7 7 7 "bec" emptyFS rfl rfl (by simp)
    (by intro g hg
        simp only [List.mem_cons, List.not_mem_nil, or_false] at hg
        rcases hg with rfl | rfl <;> rfl)
    (fun g _ => ⟨_, rfl⟩)

/-! ### Potential functions -/

/-- C7: the two potentials compute exactly `0.5*(x^2+y^2)` and
`0.5*x^2 + 24*cos(x)^2`; as Lean functions they are total and pure, so
there are no side effects and no error conditions. -/
theorem potentials_formula (x y : ℝ) :
    harmonic_potential x y = 0.5 * (x ^ 2 + y ^ 2) ∧
      custom_potential_1 x y = 0.5 * x ^ 2 + 24 * Real.cos x ^ 2 :=
  ⟨rfl, rfl⟩

/-! ### Density normalisation -/

theorem le_foldl_max (l : List ℝ) (a : ℝ) : a ≤ l.foldl max a := by
  induction l generalizing a with
  | nil => exact le_refl a
  | cons b t ih => exact le_trans (le_max_left a b) (ih (max a b))

theorem mem_le_foldl_max (l : List ℝ) : ∀ a x : ℝ, x ∈ l → x ≤ l.foldl max a := by
  induction l with
  | nil => intro a x hx; cases hx
  | cons b t ih =>
    intro a x hx
    rw [List.foldl_cons]
    rcases List.mem_cons.mp hx with rfl | hxt
    · exact le_trans (le_max_right a x) (le_foldl_max t (max a x))
    · exact ih (max a b) x hxt

theorem foldl_max_div (l : List ℝ) (m : ℝ) (hm : 0 ≤ m) :
    ∀ a : ℝ, (l.map (fun v => v / m)).foldl max (a / m) = l.foldl max a / m := by
  induction l with
  | nil => intro a; rfl
  | cons b t ih =>
    intro a
    rw [List.map_cons, List.foldl_cons, List.foldl_cons,
      max_div_div_right hm, ih (max a b)]

/-- The square-root-and-rescale pipeline applied to a nonnegative,
non-degenerate raw density: the maximum of the square roots is positive,
the output keeps the length, stays nonnegative, and peaks at exactly 1. -/
theorem normalize_pipeline (raw : List ℝ) (hnn : ∀ v ∈ raw, 0 ≤ v)
    (hnd : ∃ v ∈ raw, 0 < v) :
    ∃ m, pymax (raw.map Real.sqrt) = some m ∧ 0 < m ∧
      ((raw.map Real.sqrt).map (fun v => v / m)).length = raw.length ∧
      (∀ u ∈ (raw.map Real.sqrt).map (fun v => v / m), 0 ≤ u) ∧
      pymax ((raw.map Real.sqrt).map (fun v => v / m)) = some 1 := by
  obtain ⟨v, hv, hvpos⟩ := hnd
  obtain ⟨b, t, rfl⟩ :=
    List.exists_cons_of_ne_nil (l := raw) (by rintro rfl; cases hv)
  set m := (t.map Real.sqrt).foldl max (Real.sqrt b) with hmdef
  have hm : pymax ((b :: t).map Real.sqrt) = some m := rfl
  have hsv : Real.sqrt v ≤ m := by
    rcases List.mem_cons.mp hv with rfl | hvt
    · exact le_foldl_max (t.map Real.sqrt) (Real.sqrt v)
    · exact mem_le_foldl_max (t.map Real.sqrt) (Real.sqrt b) (Real.sqrt v)
        (List.mem_map_of_mem Real.sqrt hvt)
  have hmpos : 0 < m := lt_of_lt_of_le (Real.sqrt_pos.mpr hvpos) hsv
  refine ⟨m, hm, hmpos, by simp, ?_, ?_⟩
  · intro u hu
    obtain ⟨w, hw, rfl⟩ := List.mem_map.mp hu
    obtain ⟨z, _, rfl⟩ := List.mem_map.mp hw
    exact div_nonneg (Real.sqrt_nonneg z) hmpos.le
  · show pymax ((Real.sqrt b :: t.map Real.sqrt).map (fun v => v / m)) = some 1
    simp only [List.map_cons, pymax]
    rw [foldl_max_div (t.map Real.sqrt) m hmpos.le (Real.sqrt b), ← hmdef,
      div_self (ne_of_gt hmpos)]

/-- C2: for valid simulation parameters, when the solver's raw particle
density is aligned with the grid axis, nonnegative, and non-degenerate,
the returned density has the length of the reference `x` sequence, is
nonnegative everywhere, has maximum exactly 1, and equals the square root
of the raw density rescaled by the maximum of those square roots. -/
theorem particle_density_BEC1D_normalized
    (getXAxis : ℕ → ℝ → List ℝ)
    (getDensity : ℕ → ℝ → ℝ → ℝ → ℝ → ℕ → List ℝ)
    (dim : ℕ) (radius angular_momentum time_step coupling : ℝ)
    (iterations : ℕ)
    (hdim : 0 < dim) (hrad : 0 < radius) (hstep : 0 < time_step)
    (hiter : 0 < iterations)
    (hlen : (getDensity dim radius angular_momentum time_step coupling
        iterations).length = (getXAxis dim radius).length)
    (hnn : ∀ v ∈ getDensity dim radius angular_momentum time_step coupling
        iterations, 0 ≤ v)
    (hnd : ∃ v ∈ getDensity dim radius angular_momentum time_step coupling
        iterations, 0 < v) :
    ∃ ref psi,
      particle_density_BEC1D getXAxis getDensity dim radius angular_momentum
        time_step coupling iterations = some (ref, psi) ∧
      ref.x = getXAxis dim radius ∧
      psi.length = ref.x.length ∧
      (∀ v ∈ psi, 0 ≤ v) ∧
      pymax psi = some 1 ∧
      ∃ m, pymax ((getDensity dim radius angular_momentum time_step coupling
          iterations).map Real.sqrt) = some m ∧ 0 < m ∧
        psi = (getDensity dim radius angular_momentum time_step coupling
          iterations).map (fun v => Real.sqrt v / m) := by
  obtain ⟨m, hm, hmpos, hlen2, hnn2, hmax⟩ :=
    normalize_pipeline (getDensity dim radius angular_momentum time_step
      coupling iterations) hnn hnd
  refine ⟨⟨getXAxis dim radius⟩,
    ((getDensity dim radius angular_momentum time_step coupling
      iterations).map Real.sqrt).map (fun v => v / m),
    ?_, rfl, hlen2.trans hlen, hnn2, hmax, m, hm, hmpos, ?_⟩
  · unfold particle_density_BEC1D
    rw [hm]
  · rw [List.map_map]
    rfl

/-- C2 witness: the solver stub returns the raw density `[0, 1]` on a
two-point grid; the normalised output is defined, aligned, nonnegative,
and peaks at 1. -/
theorem particle_density_BEC1D_normalized_witness :
    ∃ ref psi,
      particle_density_BEC1D (fun _ _ => [0, 1]) (fun _ _ _ _ _ _ => [0, 1])
        1 1 0 1 1 1 = some (ref, psi) ∧
      ref.x = [0, 1] ∧
      psi.length = ref.x.length ∧
      (∀ v ∈ psi, 0 ≤ v) ∧
      pymax psi = some 1 ∧
      ∃ m, pymax (([0, 1] : List ℝ).map Real.sqrt) = some m ∧ 0 < m ∧
        psi = ([0, 1] : List ℝ).map (fun v => Real.sqrt v / m) :=
  particle_density_BEC1D_normalized (fun _ _ => [0, 1])
    (fun _ _ _ _ _ _ => [0, 1]) 1 1 0 1 1 1
    Nat.one_pos one_pos one_pos Nat.one_pos rfl
    (by intro v hv
        simp only [List.mem_cons, List.not_mem_nil, or_false] at hv
        rcases hv with rfl | rfl <;> norm_num)
    ⟨1, by simp, one_pos⟩

end NeuralBec
